import Mathlib

/-!
Shallow embedding of the QuadraVerb audio-worklet reverb processor
(`quadreverb-processor.js`) over the real numbers, together with proofs
settling the frozen claims about its specification.

Modelling conventions:
* JS 64-bit floats are modelled as real numbers (`ℝ`); float rounding is
  not modelled.
* `Float32Array` buffers are modelled as `List ℝ`.  A JS typed-array read
  out of bounds yields `undefined` (which becomes `NaN` in arithmetic);
  the model returns `0` for such reads and the out-of-bounds event itself
  is established separately as an index bound.  A JS typed-array write out
  of bounds is silently dropped, which `List.set` (and `jsArraySet` for
  negative indices) reproduces exactly.
* The JS `%` operator (remainder with the sign of the dividend) is
  `Int.tmod`; `Math.floor` is `Int.floor`; `Math.ceil` is `Int.ceil`;
  `Math.pow (10, x)` is the real power `(10:ℝ) ^ x`.
* Calls to `Math.random()` (matrix perturbation, damping jitter, modulation
  phases) are modelled as explicit function arguments.
-/

noncomputable section

/-- The public parameter record (`this.params`).  `mode` is kept as a real
number, as in the source, where presets are selected by
`Math.floor(p.mode) % 4`. -/
structure Params where
  mix : ℝ
  preDelayMs : ℝ
  decay : ℝ
  size : ℝ
  diffusion : ℝ
  lowCutHz : ℝ
  highCutHz : ℝ
  color : ℝ
  modRate : ℝ
  modDepth : ℝ
  stereoWidth : ℝ
  vintage : ℝ
  mode : ℝ

/-- Default parameter values from the processor constructor. -/
def defaultParams : Params :=
  { mix := 0.5, preDelayMs := 20, decay := 3.0, size := 0.7, diffusion := 0.75,
    lowCutHz := 100, highCutHz := 6000, color := 0.5, modRate := 0.5,
    modDepth := 0.3, stereoWidth := 0.9, vintage := 0.3, mode := 0 }

/-- One entry of the mode preset table in `updateInternalParams`. -/
structure ModePreset where
  sizeScale : ℝ
  diffGain : ℝ
  dampBase : ℝ
  hpBase : ℝ

/-- The preset table `modes` indexed by `Math.floor(p.mode) % modes.length`.
For `p.mode` outside `[0, 4)` the JS code would index past the table
(`undefined`); the model returns the plate entry there, and every claim
restricts `mode` to `{0,1,2,3}` where the table lookup is exact. -/
def modePreset (m : ℝ) : ModePreset :=
  let k := (⌊m⌋).tmod 4
  if k = 0 then ⟨0.9, 0.75, 0.88, 0.06⟩
  else if k = 1 then ⟨1.4, 0.7, 0.92, 0.04⟩
  else if k = 2 then ⟨0.5, 0.65, 0.85, 0.08⟩
  else if k = 3 then ⟨2.0, 0.8, 0.95, 0.03⟩
  else ⟨0.9, 0.75, 0.88, 0.06⟩

/-- JS typed-array read `buf[i]`.  In bounds it returns the stored value;
out of bounds JS yields `undefined` (`NaN` once used in arithmetic), which
this real-valued model replaces by `0`.  Claims about out-of-bounds reads
are stated on the index itself. -/
def jsArrayGet (l : List ℝ) (i : ℤ) : ℝ :=
  if 0 ≤ i then l.getD i.toNat 0 else 0

/-- JS typed-array write `buf[i] = v`: out-of-bounds writes are dropped. -/
def jsArraySet (l : List ℝ) (i : ℤ) (v : ℝ) : List ℝ :=
  if 0 ≤ i then l.set i.toNat v else l

/-- `onePoleCoeff` from the source: `1 - exp(-(2π·cutoff)/sr)`. -/
def onePoleCoeff (cutoffHz sr : ℝ) : ℝ :=
  1 - Real.exp (-(2 * Real.pi * cutoffHz) / sr)

/-- `processOnePoleLP`: returns the new state (= output). -/
def processOnePoleLP (coeff state input : ℝ) : ℝ :=
  state + coeff * (input - state)

/-- `processOnePoleHP`: returns `(output, new state)`. -/
def processOnePoleHP (coeff state input : ℝ) : ℝ × ℝ :=
  (input - state, state + coeff * (input - state))

/-- `softClip` from the source: identity below the 1.5 threshold, rational
knee above it. -/
def softClip (x : ℝ) : ℝ :=
  if x > 1.5 then 1.5 + (x - 1.5) / (1 + ((x - 1.5) / 0.5) ^ 2)
  else if x < -1.5 then -1.5 + (x + 1.5) / (1 + ((x + 1.5) / 0.5) ^ 2)
  else x

/-- The linear-congruential update in `getVintageNoise`:
`(noiseGen * 1103515245 + 12345) & 0x7fffffff`.  JS computes the product in
64-bit floating point (rounding it) before truncating to int32 and masking;
the model keeps the exact integer recurrence.  Both land in `[0, 2^31)`,
which is the only fact the claims use. -/
def noiseNext (n : ℤ) : ℤ :=
  (n * 1103515245 + 12345) % 2 ^ 31

/-- The value returned by `getVintageNoise` for a masked generator state
`n`: `((n / 0x7fffffff) - 0.5) * 0.00001`. -/
def vintageNoiseVal (n : ℤ) : ℝ :=
  ((n : ℝ) / 0x7fffffff - 0.5) * 0.00001

/-- Final output clip `Math.max(-1, Math.min(1, x))`. -/
def clamp1 (x : ℝ) : ℝ :=
  max (-1) (min 1 x)

/-- `popCount` from the source (binary population count). -/
def popCount (n : ℕ) : ℕ :=
  if h : n = 0 then 0 else popCount (n / 2) + n % 2
decreasing_by exact Nat.div_lt_self (Nat.pos_of_ne_zero h) one_lt_two

/-- `createHadamardMatrix(8)`: sign from the parity of `popCount (i &&& j)`,
scaled by `1/√8`, each entry perturbed by a random factor in
`[0.95, 1.05]` supplied here as the argument `jitter`. -/
def createHadamardMatrix (jitter : Fin 8 → Fin 8 → ℝ) : Fin 8 → Fin 8 → ℝ :=
  fun i j =>
    (if popCount (i.val &&& j.val) % 2 = 1 then -(1 / Real.sqrt 8) else 1 / Real.sqrt 8)
      * jitter i j

/-- One early-reflection tapped delay (`this.earlyDelays` entries). -/
structure DelayTap where
  buffer : List ℝ
  size : ℕ
  gain : ℝ
  index : ℕ

/-- One modulated allpass filter (`this.diffusionA/AR/B/BR` entries). -/
structure APF where
  buffer : List ℝ
  size : ℕ
  index : ℕ
  gain : ℝ
  modPhase : ℝ
  modDepth : ℝ

/-- One FDN delay line (`this.fdnLines` entries).  `size` and `index` are
kept as integers because the source manipulates them with the JS signed
`%` operator. -/
structure FDNLine where
  buffer : List ℝ
  size : ℤ
  baseSize : ℕ
  index : ℤ
  dampCoeff : ℝ
  dampState : ℝ
  hpCoeff : ℝ
  hpState : ℝ
  modPhase : ℝ
  modDepth : ℝ

/-- One LFO record. -/
structure LFO where
  phase : ℝ
  rate : ℝ
  amp : ℝ

/-- A stereo one-pole filter record (`coeff`, `stateL`, `stateR`). -/
structure StereoFilt where
  coeff : ℝ
  stateL : ℝ
  stateR : ℝ

/-- The full mutable state of a `QuadraVerbProcessor` instance.  The
ambient `sampleRate` global is stored as the field `sr`. -/
structure EngineState where
  params : Params
  sr : ℝ
  maxPreDelay : ℕ
  preDelayBuffer : List ℝ
  preDelayIndex : ℕ
  earlyDelays : List DelayTap
  earlyDelaysR : List DelayTap
  diffusionA : List APF
  diffusionAR : List APF
  diffusionB : List APF
  diffusionBR : List APF
  fdnLines : Fin 8 → FDNLine
  fdnMatrix : Fin 8 → Fin 8 → ℝ
  fdnFeedback : ℝ
  lfos : Fin 4 → LFO
  outputLP : StereoFilt
  outputHP : StereoFilt
  inputHP : StereoFilt
  safetyThreshold : ℝ
  safetyGain : ℝ
  noiseGen : ℤ

/-- The interpolated delayed value read by `processAllpass` (lines reading
`apf.buffer[idx1]`, `apf.buffer[idx2]`). -/
def apfDelayed (apf : APF) (lfoValue : ℝ) : ℝ :=
  let modAmount := apf.modDepth * lfoValue
  let readPos := (apf.index : ℝ) - (apf.size : ℝ) - modAmount
  let readIdx := ⌊readPos⌋
  let frac := readPos - (readIdx : ℝ)
  let idx1 := (readIdx.tmod apf.size + apf.size).tmod apf.size
  let idx2 := ((readIdx + 1).tmod apf.size + apf.size).tmod apf.size
  jsArrayGet apf.buffer idx1 * (1 - frac) + jsArrayGet apf.buffer idx2 * frac

/-- `processAllpass` from the source: returns the updated filter and the
output sample. -/
def processAllpass (apf : APF) (input lfoValue : ℝ) : APF × ℝ :=
  let delayed := apfDelayed apf lfoValue
  let output := -apf.gain * input + delayed + apf.gain * (input - apf.gain * delayed)
  ({ apf with buffer := apf.buffer.set apf.index (input + apf.gain * delayed),
              index := (apf.index + 1) % apf.size },
   output)

/-- A `forEach` chain of allpass filters sharing one LFO pattern list,
indexed as `pattern[idx % pattern.length]` like the source. -/
def runChain (pattern : List ℝ) : List APF → ℝ → ℕ → List APF × ℝ
  | [], x, _ => ([], x)
  | a :: rest, x, k =>
    let r := processAllpass a x (pattern.getD (k % pattern.length) 0)
    let rr := runChain pattern rest r.2 (k + 1)
    (r.1 :: rr.1, rr.2)

/-- The `forEach` over one early-reflection bank: accumulates the tap sum
and writes the pre-delayed sample into every tap buffer. -/
def runEarly (pre : ℝ) : List DelayTap → ℝ → List DelayTap × ℝ
  | [], acc => ([], acc)
  | d :: rest, acc =>
    let readIdx := ((d.index : ℤ) - (d.size : ℤ) + (d.buffer.length : ℤ)).tmod d.buffer.length
    let acc1 := acc + jsArrayGet d.buffer readIdx * d.gain
    let d1 : DelayTap := { d with buffer := d.buffer.set d.index pre,
                                  index := (d.index + 1) % d.buffer.length }
    let rr := runEarly pre rest acc1
    (d1 :: rr.1, rr.2)

/-- First interpolation index of the FDN read
(`(readIdx % line.size + line.size) % line.size`). -/
def fdnIdx1 (line : FDNLine) (lfoVal : ℝ) : ℤ :=
  let readIdx := ⌊(line.index : ℝ) - (line.size : ℝ) - line.modDepth * lfoVal⌋
  (readIdx.tmod line.size + line.size).tmod line.size

/-- Second interpolation index of the FDN read. -/
def fdnIdx2 (line : FDNLine) (lfoVal : ℝ) : ℤ :=
  let readIdx := ⌊(line.index : ℝ) - (line.size : ℝ) - line.modDepth * lfoVal⌋
  ((readIdx + 1).tmod line.size + line.size).tmod line.size

/-- The interpolated FDN line read (`fdnOutputs[idx]`). -/
def fdnDelayed (line : FDNLine) (lfoVal : ℝ) : ℝ :=
  let readPos := (line.index : ℝ) - (line.size : ℝ) - line.modDepth * lfoVal
  let frac := readPos - (⌊readPos⌋ : ℝ)
  jsArrayGet line.buffer (fdnIdx1 line lfoVal) * (1 - frac)
    + jsArrayGet line.buffer (fdnIdx2 line lfoVal) * frac

/-- The sample value written into an FDN line buffer: soft-clipped,
post-scaled by 0.9, plus dither when `vintage > 0`. -/
def fdnLineValue (vintage hpOut : ℝ) (n : ℤ) : ℝ :=
  if vintage > 0 then softClip (hpOut * 1.2) * 0.9 + vintageNoiseVal n * vintage
  else softClip (hpOut * 1.2) * 0.9

/-- The write-back body of the FDN loop for one line (damping lowpass,
highpass, soft saturation, dither, buffer write, index advance).  `feedIn`
is the matrix output scaled by the feedback gain plus the injected input
for lines 0–3.  Returns the updated line and noise-generator state. -/
def fdnLineStep (vintage feedIn : ℝ) (line : FDNLine) (n : ℤ) : FDNLine × ℤ :=
  let damp1 := processOnePoleLP line.dampCoeff line.dampState feedIn
  let hp := processOnePoleHP line.hpCoeff line.hpState damp1
  let n1 := if vintage > 0 then noiseNext n else n
  let v := fdnLineValue vintage hp.1 n1
  ({ line with dampState := damp1, hpState := hp.2,
               buffer := jsArraySet line.buffer line.index v,
               index := (line.index + 1).tmod line.size },
   n1)

/-- The full FDN write-back `forEach`: the eight lines in order, threading
the noise generator, with input injected into lines 0–3 only. -/
def fdnWrite8 (vintage fdnFeedback fdnInput : ℝ) (mo : Fin 8 → ℝ)
    (lines : Fin 8 → FDNLine) (n : ℤ) : (Fin 8 → FDNLine) × ℤ :=
  let r0 := fdnLineStep vintage (mo 0 * fdnFeedback + fdnInput * 0.5) (lines 0) n
  let r1 := fdnLineStep vintage (mo 1 * fdnFeedback + fdnInput * 0.5) (lines 1) r0.2
  let r2 := fdnLineStep vintage (mo 2 * fdnFeedback + fdnInput * 0.5) (lines 2) r1.2
  let r3 := fdnLineStep vintage (mo 3 * fdnFeedback + fdnInput * 0.5) (lines 3) r2.2
  let r4 := fdnLineStep vintage (mo 4 * fdnFeedback) (lines 4) r3.2
  let r5 := fdnLineStep vintage (mo 5 * fdnFeedback) (lines 5) r4.2
  let r6 := fdnLineStep vintage (mo 6 * fdnFeedback) (lines 6) r5.2
  let r7 := fdnLineStep vintage (mo 7 * fdnFeedback) (lines 7) r6.2
  (![r0.1, r1.1, r2.1, r3.1, r4.1, r5.1, r6.1, r7.1], r7.2)

/-- LFO index pattern of the FDN read loop:
`[lfo0, lfo1, lfo2, lfo3, lfo0, lfo1, lfo2, lfo3][idx]`. -/
def lfoForLine (lv : Fin 4 → ℝ) (i : Fin 8) : ℝ :=
  lv ⟨i.val % 4, Nat.mod_lt _ (by norm_num)⟩

/-- The FDN size multiplier `(0.3 + p.size * 1.7) * mode.sizeScale`. -/
def sizeMultiplier (p : Params) : ℝ :=
  (0.3 + p.size * 1.7) * (modePreset p.mode).sizeScale

/-- The divisor `targetRT60 = decaySeconds = p.decay` of the RT60 feedback
formula, exactly as the source uses it (no flooring is applied). -/
def rtDivisor (p : Params) : ℝ :=
  p.decay

/-- The raw output color cutoff `2000 + (p.color - 0.5) * 8000`. -/
def colorCutoff (p : Params) : ℝ :=
  2000 + (p.color - 0.5) * 8000

/-- The effective color cutoff, clamped below at 200 Hz before being turned
into a one-pole coefficient (`Math.max(colorCutoff, 200)`). -/
def effectiveColorCutoff (p : Params) : ℝ :=
  max (colorCutoff p) 200

/-- `updateInternalParams` from the source.  `dampJitter i` stands for the
per-line random factor `0.95 + Math.random() * 0.1` applied to the damping
coefficient at each recompute. -/
def updateInternalParams (dampJitter : Fin 8 → ℝ) (st : EngineState) : EngineState :=
  let p := st.params
  let sr := st.sr
  let preset := modePreset p.mode
  let lines1 : Fin 8 → FDNLine := fun i =>
    { st.fdnLines i with size := ⌊((st.fdnLines i).baseSize : ℝ) * sizeMultiplier p⌋ }
  let diffGain := p.diffusion * preset.diffGain
  let avgDelaySeconds := ((∑ i : Fin 8, ((lines1 i).size : ℝ)) / 8) / sr
  let feedbackGain := min ((10 : ℝ) ^ (-3 * avgDelaySeconds / rtDivisor p)) 0.985
  let dampCoeff := onePoleCoeff p.highCutHz sr * preset.dampBase
  let hpCoeff := onePoleCoeff p.lowCutHz sr * preset.hpBase
  let modDepth := p.modDepth * 0.5
  let baseRate := p.modRate * 0.003
  { st with
    fdnLines := fun i =>
      { lines1 i with dampCoeff := dampCoeff * dampJitter i,
                      hpCoeff := hpCoeff,
                      modDepth := modDepth * 5 },
    diffusionA := st.diffusionA.map fun a => { a with gain := diffGain * 0.7, modDepth := modDepth * 2 },
    diffusionAR := st.diffusionAR.map fun a => { a with gain := diffGain * 0.68, modDepth := modDepth * 2 },
    diffusionB := st.diffusionB.map fun a => { a with gain := diffGain * 0.6, modDepth := modDepth * 3 },
    diffusionBR := st.diffusionBR.map fun a => { a with gain := diffGain * 0.58, modDepth := modDepth * 3 },
    fdnFeedback := feedbackGain,
    inputHP := { st.inputHP with coeff := onePoleCoeff p.lowCutHz sr * 0.05 },
    lfos := fun i => { st.lfos i with rate := baseRate * (0.8 + (i.val : ℝ) * 0.2) },
    outputLP := { st.outputLP with coeff := onePoleCoeff (effectiveColorCutoff p) sr } }

/-- One iteration of the per-sample loop of `process` (lines 366–519 of the
source), for input samples `(inL0, inR0)`; returns the new state and the
clipped stereo output sample. -/
def processSample (st : EngineState) (inL0 inR0 : ℝ) : EngineState × ℝ × ℝ :=
  let p := st.params
  let hpL := processOnePoleHP st.inputHP.coeff st.inputHP.stateL inL0
  let inL := hpL.1
  let hpR := processOnePoleHP st.inputHP.coeff st.inputHP.stateR inR0
  let inR := hpR.1
  let preDelayTime := ⌊p.preDelayMs / 1000 * st.sr⌋
  let preDelayIdx := ((st.preDelayIndex : ℤ) - preDelayTime + (st.maxPreDelay : ℤ)).tmod st.maxPreDelay
  let preDelayed := jsArrayGet st.preDelayBuffer preDelayIdx
  let preBuf := st.preDelayBuffer.set st.preDelayIndex ((inL + inR) * 0.5)
  let preIndex1 := (st.preDelayIndex + 1) % st.maxPreDelay
  let eL := runEarly preDelayed st.earlyDelays 0
  let eR := runEarly preDelayed st.earlyDelaysR 0
  let lfo : Fin 4 → ℝ := fun i => Real.sin (st.lfos i).phase * (st.lfos i).amp
  let dA := runChain [lfo 0, lfo 1, lfo 2, lfo 3] st.diffusionA (preDelayed + eL.2 * 0.5) 0
  let dAR := runChain [lfo 1, lfo 2, lfo 3, lfo 0] st.diffusionAR (preDelayed + eR.2 * 0.5) 0
  let dB := runChain [lfo 2, lfo 3, lfo 0] st.diffusionB dA.2 0
  let dBR := runChain [lfo 3, lfo 0, lfo 1] st.diffusionBR dAR.2 0
  let fdnInput := (dB.2 + dBR.2) * 0.5
  let fdnOuts : Fin 8 → ℝ := fun i => fdnDelayed (st.fdnLines i) (lfoForLine lfo i)
  let matrixOut : Fin 8 → ℝ := fun r => ∑ c : Fin 8, st.fdnMatrix r c * fdnOuts c
  let fw := fdnWrite8 p.vintage st.fdnFeedback fdnInput matrixOut st.fdnLines st.noiseGen
  let wetL0 := (fdnOuts 0 + fdnOuts 2 + fdnOuts 4 + fdnOuts 6) * 0.25 + eL.2 * 0.3
  let wetR0 := (fdnOuts 1 + fdnOuts 3 + fdnOuts 5 + fdnOuts 7) * 0.25 + eR.2 * 0.3
  let mid := (wetL0 + wetR0) * 0.5
  let side := (wetL0 - wetR0) * 0.5
  let wetL1 := mid + side * p.stereoWidth
  let wetR1 := mid - side * p.stereoWidth
  let lpL := processOnePoleLP st.outputLP.coeff st.outputLP.stateL wetL1
  let lpR := processOnePoleLP st.outputLP.coeff st.outputLP.stateR wetR1
  let wetPeak := max |lpL| |lpR|
  let wetL2 := if wetPeak > st.safetyThreshold then lpL * (st.safetyThreshold / wetPeak) else lpL
  let wetR2 := if wetPeak > st.safetyThreshold then lpR * (st.safetyThreshold / wetPeak) else lpR
  let outL := clamp1 (inL * (1 - p.mix) + wetL2 * p.mix)
  let outR := clamp1 (inR * (1 - p.mix) + wetR2 * p.mix)
  ({ st with inputHP := { st.inputHP with stateL := hpL.2, stateR := hpR.2 },
             preDelayBuffer := preBuf, preDelayIndex := preIndex1,
             earlyDelays := eL.1, earlyDelaysR := eR.1,
             diffusionA := dA.1, diffusionAR := dAR.1,
             diffusionB := dB.1, diffusionBR := dBR.1,
             fdnLines := fw.1, noiseGen := fw.2,
             outputLP := { st.outputLP with stateL := lpL, stateR := lpR } },
   outL, outR)

/-- The per-block LFO phase advance (`lfo.phase += lfo.rate * blockSize`,
wrapped once past `2π`). -/
def lfoAdvance (blockSize : ℝ) (l : LFO) : LFO :=
  let ph := l.phase + l.rate * blockSize
  { l with phase := if ph > 2 * Real.pi then ph - 2 * Real.pi else ph }

/-- The per-sample fold of `process` over an input block of stereo pairs. -/
def processSamples : EngineState → List (ℝ × ℝ) → EngineState × List (ℝ × ℝ)
  | st, [] => (st, [])
  | st, (a, b) :: rest =>
    let s := processSample st a b
    let rr := processSamples s.1 rest
    (rr.1, s.2 :: rr.2)

/-- The `process` entry point for one block with a present input: advance
the LFO phases once, then run the per-sample loop. -/
def process (st : EngineState) (block : List (ℝ × ℝ)) : EngineState × List (ℝ × ℝ) :=
  let st1 := { st with lfos := fun i => lfoAdvance (block.length : ℝ) (st.lfos i) }
  processSamples st1 block

/-- The fixed FDN base lengths `[1453, 1789, 2099, 2423, 2789, 3167, 3547, 3989]`. -/
def fdnBaseSizes : Fin 8 → ℕ :=
  ![1453, 1789, 2099, 2423, 2789, 3167, 3547, 3989]

/-- An FDN line as built in `initializeBuffers` (8192-element buffer,
"will resize dynamically" per the source comment). -/
def initFDNLine (i : Fin 8) : FDNLine :=
  { buffer := List.replicate 8192 0, size := (fdnBaseSizes i : ℤ),
    baseSize := fdnBaseSizes i, index := 0,
    dampCoeff := 0.9, dampState := 0, hpCoeff := 0.05, hpState := 0,
    modPhase := ((i.val : ℝ) / 8) * Real.pi * 2, modDepth := 0 }

/-- `resizeFDNBuffers` from the source: grow (never shrink) each line's
buffer to `max_i (baseSize_i * 2)`; `Float32Array.set` copies the old
contents to the front, the rest stays zero. -/
def resizeFDNBuffers (lines : Fin 8 → FDNLine) : Fin 8 → FDNLine :=
  let maxSize := Finset.univ.sup fun i : Fin 8 => (lines i).baseSize * 2
  fun i =>
    if (lines i).buffer.length < maxSize then
      { lines i with buffer := (lines i).buffer
          ++ List.replicate (maxSize - (lines i).buffer.length) 0 }
    else lines i

/-- A fresh allpass filter with a zeroed `size + 1`-element buffer. -/
def mkAPF (size : ℕ) (gain modPhase : ℝ) : APF :=
  { buffer := List.replicate (size + 1) 0, size := size, index := 0,
    gain := gain, modPhase := modPhase, modDepth := 0 }

/-- The early-reflection tap table (`delayMs`, `gain`). -/
def earlyTaps : List (ℝ × ℝ) :=
  [(5.1, 0.8), (8.7, 0.65), (12.3, 0.55), (17.9, 0.45),
   (22.4, 0.38), (29.6, 0.32), (35.8, 0.25), (41.2, 0.18)]

/-- A left-bank early tap sized `ceil(sr * delayMs / 1000)`. -/
def mkTap (sr : ℝ) (t : ℝ × ℝ) : DelayTap :=
  { buffer := List.replicate ((⌈sr * t.1 / 1000⌉).toNat + 1) 0,
    size := (⌈sr * t.1 / 1000⌉).toNat, gain := t.2, index := 0 }

/-- A right-bank early tap: offsets scaled by 1.07, gains by 0.93. -/
def mkTapR (sr : ℝ) (t : ℝ × ℝ) : DelayTap :=
  { buffer := List.replicate ((⌈sr * (t.1 * 1.07) / 1000⌉).toNat + 1) 0,
    size := (⌈sr * (t.1 * 1.07) / 1000⌉).toNat, gain := t.2 * 0.93, index := 0 }

/-- The engine state after `initializeBuffers` and the constructor's field
initialisations, before the constructor's `updateInternalParams` call.
`mj` supplies the Hadamard-matrix random perturbations and `ph k` the
`k`-th random modulation phase drawn in `initializeBuffers`. -/
def constructState (sr : ℝ) (mj : Fin 8 → Fin 8 → ℝ) (ph : ℕ → ℝ) : EngineState :=
  { params := defaultParams, sr := sr,
    maxPreDelay := (⌊sr * 0.2⌋).toNat,
    preDelayBuffer := List.replicate (⌊sr * 0.2⌋).toNat 0,
    preDelayIndex := 0,
    earlyDelays := earlyTaps.map (mkTap sr),
    earlyDelaysR := earlyTaps.map (mkTapR sr),
    diffusionA := [mkAPF 142 0.7 (ph 0), mkAPF 107 0.7 (ph 1),
                   mkAPF 379 0.7 (ph 2), mkAPF 277 0.7 (ph 3)],
    diffusionAR := [mkAPF (⌊(142 : ℝ) * 1.11⌋).toNat 0.68 (ph 4),
                    mkAPF (⌊(107 : ℝ) * 1.11⌋).toNat 0.68 (ph 5),
                    mkAPF (⌊(379 : ℝ) * 1.11⌋).toNat 0.68 (ph 6),
                    mkAPF (⌊(277 : ℝ) * 1.11⌋).toNat 0.68 (ph 7)],
    diffusionB := [mkAPF 617 0.6 (ph 8), mkAPF 457 0.6 (ph 9), mkAPF 829 0.6 (ph 10)],
    diffusionBR := [mkAPF (⌊(617 : ℝ) * 1.13⌋).toNat 0.58 (ph 11),
                    mkAPF (⌊(457 : ℝ) * 1.13⌋).toNat 0.58 (ph 12),
                    mkAPF (⌊(829 : ℝ) * 1.13⌋).toNat 0.58 (ph 13)],
    fdnLines := resizeFDNBuffers initFDNLine,
    fdnMatrix := createHadamardMatrix mj,
    fdnFeedback := 0.7,
    lfos := ![⟨0, 0.37, 1.0⟩, ⟨Real.pi * 0.5, 0.53, 0.8⟩,
              ⟨Real.pi, 0.71, 0.9⟩, ⟨Real.pi * 1.5, 0.29, 0.7⟩],
    outputLP := ⟨0.8, 0, 0⟩, outputHP := ⟨0.05, 0, 0⟩, inputHP := ⟨0.05, 0, 0⟩,
    safetyThreshold := 0.95, safetyGain := 1.0, noiseGen := 0 }

/-- A fully constructed engine: `constructState` followed by the
constructor's initial `updateInternalParams` call (damping jitter `j0`). -/
def constructEngine (sr : ℝ) (mj : Fin 8 → Fin 8 → ℝ) (ph : ℕ → ℝ)
    (j0 : Fin 8 → ℝ) : EngineState :=
  updateInternalParams j0 (constructState sr mj ph)

/-- The `updateParams` message handler's `Object.assign` with a full
parameter record: every field replaced.  The handler then calls
`updateInternalParams`, applied separately. -/
def setParams (st : EngineState) (p : Params) : EngineState :=
  { st with params := p }

end

/-- Basic bound: the noise generator state is always masked into `[0, 2^31)`. -/
theorem noiseNext_nonneg (n : ℤ) : 0 ≤ noiseNext n :=
  Int.emod_nonneg _ (by norm_num)

/-- Upper bound of the masked noise generator state. -/
theorem noiseNext_lt (n : ℤ) : noiseNext n < 2 ^ 31 :=
  Int.emod_lt_of_pos _ (by norm_num)

/-- The dither value has magnitude at most `5·10⁻⁶` whenever the generator
state lies in the masked range. -/
theorem vintageNoiseVal_bound (n : ℤ) (h0 : 0 ≤ n) (h1 : n < 2 ^ 31) :
    |vintageNoiseVal n| ≤ 5 / 1000000 := by
  have hn0 : (0 : ℝ) ≤ (n : ℝ) := by exact_mod_cast h0
  have hn1 : (n : ℝ) ≤ 2 ^ 31 - 1 := by
    have : n ≤ 2 ^ 31 - 1 := by omega
    exact_mod_cast this
  have hden : ((0x7fffffff : ℤ) : ℝ) = 2 ^ 31 - 1 := by norm_num
  rw [vintageNoiseVal, abs_le]
  constructor
  · have hq : (0 : ℝ) ≤ (n : ℝ) / 0x7fffffff := by positivity
    nlinarith
  · have hq : (n : ℝ) / 0x7fffffff ≤ 1 := by
      rw [div_le_one (by norm_num)]
      nlinarith
    nlinarith

/-- The soft clipper is bounded by 1.75 in magnitude on all of `ℝ`. -/
theorem softClip_abs_le (x : ℝ) : |softClip x| ≤ 1.75 := by
  rw [softClip]
  split_ifs with h1 h2
  · have hsq : ((x - 1.5) / 0.5) ^ 2 = 4 * (x - 1.5) ^ 2 := by ring
    rw [hsq]
    have ht : (0 : ℝ) < x - 1.5 := by linarith
    have hden : (0 : ℝ) < 1 + 4 * (x - 1.5) ^ 2 := by positivity
    have hupper : (x - 1.5) / (1 + 4 * (x - 1.5) ^ 2) ≤ 0.25 := by
      rw [div_le_iff₀ hden]
      nlinarith [sq_nonneg (2 * (x - 1.5) - 1)]
    have hlower : (0 : ℝ) < (x - 1.5) / (1 + 4 * (x - 1.5) ^ 2) := by positivity
    rw [abs_le]
    constructor <;> nlinarith
  · have hsq : ((x + 1.5) / 0.5) ^ 2 = 4 * (x + 1.5) ^ 2 := by ring
    rw [hsq]
    have ht : (0 : ℝ) < -(x + 1.5) := by linarith
    have hden : (0 : ℝ) < 1 + 4 * (x + 1.5) ^ 2 := by positivity
    have hupper : -(x + 1.5) / (1 + 4 * (x + 1.5) ^ 2) ≤ 0.25 := by
      rw [div_le_iff₀ hden]
      nlinarith [sq_nonneg (2 * (x + 1.5) + 1)]
    have hlower : (0 : ℝ) < -(x + 1.5) / (1 + 4 * (x + 1.5) ^ 2) := by positivity
    have hswap : (x + 1.5) / (1 + 4 * (x + 1.5) ^ 2)
        = -(-(x + 1.5) / (1 + 4 * (x + 1.5) ^ 2)) := by ring
    rw [hswap, abs_le]
    constructor <;> nlinarith
  · rw [abs_le]
    constructor <;> linarith

/-- The soft clipper is the identity on `[-1.5, 1.5]`. -/
theorem softClip_id (x : ℝ) (h0 : -1.5 ≤ x) (h1 : x ≤ 1.5) : softClip x = x := by
  rw [softClip, if_neg (by linarith), if_neg (by linarith)]

/-- C9: the soft-clip nonlinearity is the identity on `[-1.5, 1.5]` and its
output magnitude never exceeds 1.75 for any real input, bounding any
feedback transient. -/
theorem C9_softClip_id_and_bounded (x : ℝ) :
    (-1.5 ≤ x → x ≤ 1.5 → softClip x = x) ∧ |softClip x| ≤ 1.75 :=
  ⟨fun h0 h1 => softClip_id x h0 h1, softClip_abs_le x⟩

/-- Witness for C9 at the concrete inputs 1 and 2. -/
theorem C9_softClip_witness : softClip 1 = 1 ∧ |softClip 2| ≤ 1.75 :=
  ⟨(C9_softClip_id_and_bounded 1).1 (by norm_num) (by norm_num),
   (C9_softClip_id_and_bounded 2).2⟩

/-- A concrete engine constructed at 48 kHz with all random draws fixed
(matrix jitter 1, phases 0, damping jitter 1). -/
noncomputable def engine48 : EngineState :=
  constructEngine 48000 (fun _ _ => 1) (fun _ => 0) (fun _ => 1)

/-- C4: after any parameter update with decay in `(0, 30]` and size in
`[0, 1]`, the clamped RT60 feedback gain is at most 0.985. -/
theorem C4_feedback_gain_le (j : Fin 8 → ℝ) (st : EngineState)
    (h1 : 0 < st.params.decay) (h2 : st.params.decay ≤ 30)
    (h3 : 0 ≤ st.params.size) (h4 : st.params.size ≤ 1) :
    (updateInternalParams j st).fdnFeedback ≤ 0.985 := by
  simp only [updateInternalParams]
  exact min_le_right _ _

/-- Witness for C4 at the freshly constructed engine (decay 3, size 0.7). -/
theorem C4_feedback_gain_witness :
    (0 < engine48.params.decay ∧ engine48.params.decay ≤ 30
      ∧ 0 ≤ engine48.params.size ∧ engine48.params.size ≤ 1)
    ∧ (updateInternalParams (fun _ => 1) engine48).fdnFeedback ≤ 0.985 :=
  ⟨⟨show (0:ℝ) < 3.0 by norm_num, show (3.0:ℝ) ≤ 30 by norm_num,
    show (0:ℝ) ≤ 0.7 by norm_num, show (0.7:ℝ) ≤ 1 by norm_num⟩,
   C4_feedback_gain_le (fun _ => 1) engine48 (show (0:ℝ) < 3.0 by norm_num)
     (show (3.0:ℝ) ≤ 30 by norm_num) (show (0:ℝ) ≤ 0.7 by norm_num)
     (show (0.7:ℝ) ≤ 1 by norm_num)⟩

/-- A parameter record with a non-positive decay. -/
def paramsNegDecay : Params := { defaultParams with decay := -1 }

/-- C3 counterexample: the RT60 divisor actually used by
`updateInternalParams` at decay = −1 is −1 itself, not a positive epsilon:
no flooring of a non-positive decay happens anywhere in the update. -/
theorem C3_counterexample :
    rtDivisor paramsNegDecay = -1 ∧ ¬ (0 < rtDivisor paramsNegDecay) := by
  refine ⟨rfl, ?_⟩
  rw [show rtDivisor paramsNegDecay = -1 from rfl]
  norm_num

/-- C3 amended: the update applies no floor to decay — decay is used
directly as the RT60 divisor — yet for every decay ≠ 0 the clamped
feedback gain is still a well-defined real in `(0, 0.985]`. -/
theorem C3_amended_gain_defined (j : Fin 8 → ℝ) (st : EngineState)
    (h : st.params.decay ≠ 0) :
    0 < (updateInternalParams j st).fdnFeedback
      ∧ (updateInternalParams j st).fdnFeedback ≤ 0.985 := by
  constructor
  · simp only [updateInternalParams]
    exact lt_min (Real.rpow_pos_of_pos (by norm_num) _) (by norm_num)
  · simp only [updateInternalParams]
    exact min_le_right _ _

/-- Witness for the amended C3 at the constructed engine (decay 3 ≠ 0). -/
theorem C3_amended_witness :
    engine48.params.decay ≠ 0
    ∧ (0 < (updateInternalParams (fun _ => 1) engine48).fdnFeedback
       ∧ (updateInternalParams (fun _ => 1) engine48).fdnFeedback ≤ 0.985) :=
  ⟨show (3.0:ℝ) ≠ 0 by norm_num,
   C3_amended_gain_defined (fun _ => 1) engine48 (show (3.0:ℝ) ≠ 0 by norm_num)⟩

/-- Parameter records pinning `color` at 0, 0.5 and 1. -/
def paramsColor0 : Params := { defaultParams with color := 0 }

/-- Parameter record with `color = 0.5`. -/
def paramsColorHalf : Params := { defaultParams with color := 0.5 }

/-- Parameter record with `color = 1`. -/
def paramsColor1 : Params := { defaultParams with color := 1 }

/-- C7 counterexample: at `color = 1` the effective output color cutoff is
6000 Hz, nowhere near the claimed ≈10000 Hz (not even within 20%). -/
theorem C7_counterexample :
    effectiveColorCutoff paramsColor1 = 6000
      ∧ ¬ (8000 ≤ effectiveColorCutoff paramsColor1) := by
  have h : effectiveColorCutoff paramsColor1 = 6000 := by
    rw [effectiveColorCutoff, show colorCutoff paramsColor1 = 2000 + (1 - 0.5) * 8000 from rfl]
    rw [max_eq_left (by norm_num)]
    norm_num
  exact ⟨h, by rw [h]; norm_num⟩

/-- C7 amended: the output color cutoff is
`max (2000 + (color − 0.5)·8000) 200`: 200 Hz effective at color = 0 (the
raw value is −2000), 2000 Hz at color = 0.5, and 6000 Hz at color = 1. -/
theorem C7_amended_color_cutoff :
    colorCutoff paramsColor0 = -2000
      ∧ effectiveColorCutoff paramsColor0 = 200
      ∧ effectiveColorCutoff paramsColorHalf = 2000
      ∧ effectiveColorCutoff paramsColor1 = 6000 := by
  refine ⟨?_, ?_, ?_, ?_⟩
  · rw [show colorCutoff paramsColor0 = 2000 + (0 - 0.5) * 8000 from rfl]; norm_num
  · rw [effectiveColorCutoff, show colorCutoff paramsColor0 = 2000 + (0 - 0.5) * 8000 from rfl]
    rw [show (2000:ℝ) + (0 - 0.5) * 8000 = -2000 by norm_num, max_eq_right (by norm_num)]
  · rw [effectiveColorCutoff, show colorCutoff paramsColorHalf = 2000 + (0.5 - 0.5) * 8000 from rfl]
    rw [max_eq_left (by norm_num)]; norm_num
  · rw [effectiveColorCutoff, show colorCutoff paramsColor1 = 2000 + (1 - 0.5) * 8000 from rfl]
    rw [max_eq_left (by norm_num)]; norm_num

/-- A tiny concrete allpass filter: one-sample delay holding the value 5,
gain 0.5, no modulation. -/
def apfCE : APF :=
  { buffer := [5, 0], size := 1, index := 0, gain := 0.5, modPhase := 0, modDepth := 0 }

/-- The delayed value of `apfCE` is 5. -/
lemma apfCE_delayed : apfDelayed apfCE 0 = 5 := by
  unfold apfDelayed apfCE
  have hfl : ⌊((0:ℕ):ℝ) - ((1:ℕ):ℝ) - 0 * 0⌋ = -1 := by norm_num
  norm_num [hfl, jsArrayGet, show ((-1:ℤ).tmod 1 + 1).tmod 1 = 0 by decide,
    show (((-1:ℤ) + 1).tmod 1 + 1).tmod 1 = 0 by decide]

/-- C5 counterexample: one allpass step on `apfCE` with input 1 returns
3.75, but `d + g·(input − g·d)` with `d = 5`, `g = 0.5` is 4.25 — the
source output has an extra leading `−g·input` term the claim omits. -/
theorem C5_counterexample :
    apfDelayed apfCE 0 = 5 ∧ (processAllpass apfCE 1 0).2 = 3.75 ∧
    (processAllpass apfCE 1 0).2
      ≠ apfDelayed apfCE 0 + apfCE.gain * (1 - apfCE.gain * apfDelayed apfCE 0) := by
  have hout : (processAllpass apfCE 1 0).2
      = -apfCE.gain * 1 + apfDelayed apfCE 0
        + apfCE.gain * (1 - apfCE.gain * apfDelayed apfCE 0) := rfl
  have h375 : (processAllpass apfCE 1 0).2 = 3.75 := by
    rw [hout, apfCE_delayed, show apfCE.gain = 0.5 from rfl]; norm_num
  refine ⟨apfCE_delayed, h375, ?_⟩
  rw [h375, apfCE_delayed, show apfCE.gain = 0.5 from rfl]
  norm_num

/-- C5 amended: one allpass step returns
`−g·input + d + g·(input − g·d)` (which simplifies to `(1 − g²)·d`), and
writes `input + g·d` into the buffer at the current index; the buffer-write
half of the claim is exactly as stated. -/
theorem C5_amended_allpass_step (apf : APF) (input lfoValue : ℝ) :
    (processAllpass apf input lfoValue).2
      = -apf.gain * input + apfDelayed apf lfoValue
        + apf.gain * (input - apf.gain * apfDelayed apf lfoValue)
    ∧ (processAllpass apf input lfoValue).2
      = (1 - apf.gain ^ 2) * apfDelayed apf lfoValue
    ∧ (processAllpass apf input lfoValue).1.buffer
      = apf.buffer.set apf.index (input + apf.gain * apfDelayed apf lfoValue)
    ∧ (processAllpass apf input lfoValue).1.index = (apf.index + 1) % apf.size :=
  ⟨rfl, by rw [show (processAllpass apf input lfoValue).2
      = -apf.gain * input + apfDelayed apf lfoValue
        + apf.gain * (input - apf.gain * apfDelayed apf lfoValue) from rfl]; ring,
   rfl, rfl⟩

/-- C8: a parameter update mutates only derived-coefficient fields — every
delay-line buffer, every write index, every persistent filter state, every
LFO phase and the noise generator are unchanged by `updateInternalParams`. -/
theorem C8_update_touches_only_coefficients (j : Fin 8 → ℝ) (st : EngineState) :
    (updateInternalParams j st).preDelayBuffer = st.preDelayBuffer
    ∧ (updateInternalParams j st).preDelayIndex = st.preDelayIndex
    ∧ (updateInternalParams j st).earlyDelays = st.earlyDelays
    ∧ (updateInternalParams j st).earlyDelaysR = st.earlyDelaysR
    ∧ (updateInternalParams j st).diffusionA.map APF.buffer = st.diffusionA.map APF.buffer
    ∧ (updateInternalParams j st).diffusionA.map APF.index = st.diffusionA.map APF.index
    ∧ (updateInternalParams j st).diffusionAR.map APF.buffer = st.diffusionAR.map APF.buffer
    ∧ (updateInternalParams j st).diffusionAR.map APF.index = st.diffusionAR.map APF.index
    ∧ (updateInternalParams j st).diffusionB.map APF.buffer = st.diffusionB.map APF.buffer
    ∧ (updateInternalParams j st).diffusionB.map APF.index = st.diffusionB.map APF.index
    ∧ (updateInternalParams j st).diffusionBR.map APF.buffer = st.diffusionBR.map APF.buffer
    ∧ (updateInternalParams j st).diffusionBR.map APF.index = st.diffusionBR.map APF.index
    ∧ (∀ i, ((updateInternalParams j st).fdnLines i).buffer = (st.fdnLines i).buffer)
    ∧ (∀ i, ((updateInternalParams j st).fdnLines i).index = (st.fdnLines i).index)
    ∧ (∀ i, ((updateInternalParams j st).fdnLines i).dampState = (st.fdnLines i).dampState)
    ∧ (∀ i, ((updateInternalParams j st).fdnLines i).hpState = (st.fdnLines i).hpState)
    ∧ (updateInternalParams j st).inputHP.stateL = st.inputHP.stateL
    ∧ (updateInternalParams j st).inputHP.stateR = st.inputHP.stateR
    ∧ (updateInternalParams j st).outputLP.stateL = st.outputLP.stateL
    ∧ (updateInternalParams j st).outputLP.stateR = st.outputLP.stateR
    ∧ (updateInternalParams j st).outputHP = st.outputHP
    ∧ (∀ i, ((updateInternalParams j st).lfos i).phase = (st.lfos i).phase)
    ∧ (updateInternalParams j st).noiseGen = st.noiseGen := by
  refine ⟨rfl, rfl, rfl, rfl, ?_, ?_, ?_, ?_, ?_, ?_, ?_, ?_,
    fun i => rfl, fun i => rfl, fun i => rfl, fun i => rfl,
    rfl, rfl, rfl, rfl, rfl, fun i => rfl, rfl⟩
  all_goals
    simp only [updateInternalParams, List.map_map]
    rfl

/-- Setting one list position either leaves a read unchanged or makes it
read the written value. -/
lemma getD_set_cases (l : List ℝ) (k j : ℕ) (v : ℝ) :
    (l.set k v).getD j 0 = l.getD j 0 ∨ (l.set k v).getD j 0 = v := by
  induction l generalizing k j with
  | nil => left; rfl
  | cons a t ih =>
    cases k with
    | zero =>
      cases j with
      | zero => right; rfl
      | succ j => left; rfl
    | succ k =>
      cases j with
      | zero => left; rfl
      | succ j => exact ih k j

/-- The value written into an FDN line buffer is bounded by
`0.9·1.75 + 5·10⁻⁶` whenever vintage lies in `[0, 1]` and the noise state
is in the masked range when it is used. -/
lemma fdnLineValue_bound (vintage hpOut : ℝ) (n : ℤ)
    (hv0 : 0 ≤ vintage) (hv1 : vintage ≤ 1)
    (hn : vintage > 0 → 0 ≤ n ∧ n < 2 ^ 31) :
    |fdnLineValue vintage hpOut n| ≤ 0.9 * 1.75 + 5 / 1000000 := by
  rw [fdnLineValue]
  split_ifs with h
  · have h1 := softClip_abs_le (hpOut * 1.2)
    have h2 := vintageNoiseVal_bound n (hn h).1 (hn h).2
    calc |softClip (hpOut * 1.2) * 0.9 + vintageNoiseVal n * vintage|
        ≤ |softClip (hpOut * 1.2) * 0.9| + |vintageNoiseVal n * vintage| := abs_add _ _
      _ ≤ 0.9 * 1.75 + 5 / 1000000 := by
          rw [abs_mul, abs_mul, abs_of_nonneg hv0]
          have h3 : |softClip (hpOut * 1.2)| * |(0.9:ℝ)| ≤ 1.75 * 0.9 := by
            rw [show |(0.9:ℝ)| = 0.9 from abs_of_nonneg (by norm_num)]
            nlinarith [abs_nonneg (softClip (hpOut * 1.2))]
          have h4 : |vintageNoiseVal n| * vintage ≤ 5 / 1000000 := by
            nlinarith [abs_nonneg (vintageNoiseVal n)]
          linarith
  · rw [abs_mul, show |(0.9:ℝ)| = 0.9 from abs_of_nonneg (by norm_num)]
    nlinarith [softClip_abs_le (hpOut * 1.2), abs_nonneg (softClip (hpOut * 1.2))]

/-- C10: every value the FDN write-back of `process` stores into a delay
line buffer (via `fdnLineStep`, the body of its write loop) has magnitude
at most `0.9·1.75 + 5·10⁻⁶` for every vintage in `[0, 1]`, every incoming
feedback value, and every prior line and noise state: a buffer cell is
either untouched or holds a bounded value. -/
theorem C10_fdn_write_bounded (vintage feedIn : ℝ) (line : FDNLine) (n : ℤ) (j : ℕ)
    (hv0 : 0 ≤ vintage) (hv1 : vintage ≤ 1) :
    ((fdnLineStep vintage feedIn line n).1.buffer.getD j 0 = line.buffer.getD j 0)
    ∨ |(fdnLineStep vintage feedIn line n).1.buffer.getD j 0| ≤ 0.9 * 1.75 + 5 / 1000000 := by
  have hb : (fdnLineStep vintage feedIn line n).1.buffer
      = jsArraySet line.buffer line.index
          (fdnLineValue vintage
            (processOnePoleHP line.hpCoeff line.hpState
              (processOnePoleLP line.dampCoeff line.dampState feedIn)).1
            (if vintage > 0 then noiseNext n else n)) := rfl
  rw [hb, jsArraySet]
  by_cases hidx : 0 ≤ line.index
  · rw [if_pos hidx]
    rcases getD_set_cases line.buffer line.index.toNat j
      (fdnLineValue vintage
        (processOnePoleHP line.hpCoeff line.hpState
          (processOnePoleLP line.dampCoeff line.dampState feedIn)).1
        (if vintage > 0 then noiseNext n else n)) with h | h
    · left; exact h
    · right
      rw [h]
      refine fdnLineValue_bound _ _ _ hv0 hv1 ?_
      intro hv
      rw [if_pos hv]
      exact ⟨noiseNext_nonneg n, noiseNext_lt n⟩
  · rw [if_neg hidx]
    left; rfl

/-- A minimal concrete FDN line for the C10 witness. -/
def dummyLine : FDNLine :=
  { buffer := [0], size := 1, baseSize := 1, index := 0, dampCoeff := 0,
    dampState := 0, hpCoeff := 0, hpState := 0, modPhase := 0, modDepth := 0 }

/-- Witness for C10 at vintage 0.3, zero input and a trivial line. -/
theorem C10_fdn_write_bounded_witness :
    ((0:ℝ) ≤ 0.3 ∧ (0.3:ℝ) ≤ 1)
    ∧ (((fdnLineStep 0.3 0 dummyLine 0).1.buffer.getD 0 0 = dummyLine.buffer.getD 0 0)
       ∨ |(fdnLineStep 0.3 0 dummyLine 0).1.buffer.getD 0 0| ≤ 0.9 * 1.75 + 5 / 1000000) :=
  ⟨⟨by norm_num, by norm_num⟩,
   C10_fdn_write_bounded 0.3 0 dummyLine 0 0 (by norm_num) (by norm_num)⟩

/-- Ambient mode at full size (a valid parameter record: decay 3 > 0, all
unit-range fields in range, mode 3); modulation depth 0 keeps the FDN read
offsets integral. -/
def paramsAmbientFull : Params :=
  { defaultParams with mode := 3, size := 1, modDepth := 0 }

/-- The engine right after receiving `paramsAmbientFull` through the
parameter-update message. -/
noncomputable def stAmbient : EngineState :=
  updateInternalParams (fun _ => 1) (setParams engine48 paramsAmbientFull)

/-- Preset lookup at mode 3 selects the Ambient row. -/
lemma modePreset_three : modePreset 3 = ⟨2.0, 0.8, 0.95, 0.03⟩ := by
  have h3 : ⌊(3:ℝ)⌋ = 3 := by norm_num
  simp only [modePreset, h3, show ((3:ℤ)).tmod 4 = 3 from by decide]
  norm_num

/-- The size multiplier at mode 3, size 1 is `(0.3 + 1.7) · 2.0 = 4`. -/
lemma sizeMultiplier_ambient : sizeMultiplier paramsAmbientFull = 4 := by
  rw [show sizeMultiplier paramsAmbientFull
      = (0.3 + 1 * 1.7) * (modePreset 3).sizeScale from rfl, modePreset_three]
  norm_num

/-- At construction the resize pass is a no-op: every FDN buffer already
holds 8192 ≥ 7978 = max(baseSize·2) samples. -/
lemma resizeFDNBuffers_init (i : Fin 8) : resizeFDNBuffers initFDNLine i = initFDNLine i := by
  have hsup : (Finset.univ.sup fun k : Fin 8 => (initFDNLine k).baseSize * 2) = 7978 := by
    decide
  have hlen : (initFDNLine i).buffer.length = 8192 := by
    rw [show (initFDNLine i).buffer = List.replicate 8192 0 from rfl]
    exact List.length_replicate _ _
  simp only [resizeFDNBuffers, hsup, hlen]
  norm_num

attribute [irreducible] resizeFDNBuffers

/-- A parameter update leaves each FDN line's buffer untouched. -/
lemma update_fdn_buffer (j : Fin 8 → ℝ) (st : EngineState) (i : Fin 8) :
    ((updateInternalParams j st).fdnLines i).buffer = (st.fdnLines i).buffer := rfl

/-- A parameter update leaves each FDN line's base length untouched. -/
lemma update_fdn_baseSize (j : Fin 8 → ℝ) (st : EngineState) (i : Fin 8) :
    ((updateInternalParams j st).fdnLines i).baseSize = (st.fdnLines i).baseSize := rfl

/-- A parameter update leaves each FDN line's write index untouched. -/
lemma update_fdn_index (j : Fin 8 → ℝ) (st : EngineState) (i : Fin 8) :
    ((updateInternalParams j st).fdnLines i).index = (st.fdnLines i).index := rfl

/-- The logical length set by a parameter update. -/
lemma update_fdn_size (j : Fin 8 → ℝ) (st : EngineState) (i : Fin 8) :
    ((updateInternalParams j st).fdnLines i).size
      = ⌊(((st.fdnLines i).baseSize : ℕ) : ℝ) * sizeMultiplier st.params⌋ := rfl

/-- The FDN modulation depth set by a parameter update. -/
lemma update_fdn_modDepth (j : Fin 8 → ℝ) (st : EngineState) (i : Fin 8) :
    ((updateInternalParams j st).fdnLines i).modDepth = st.params.modDepth * 0.5 * 5 := rfl

/-- Replacing the parameter record does not touch the delay lines. -/
lemma setParams_fdnLines (st : EngineState) (p : Params) :
    (setParams st p).fdnLines = st.fdnLines := rfl

/-- Replacing the parameter record installs exactly that record. -/
lemma setParams_params (st : EngineState) (p : Params) :
    (setParams st p).params = p := rfl

/-- The FDN lines of a freshly initialised state. -/
lemma constructState_fdnLines (sr : ℝ) (mj : Fin 8 → Fin 8 → ℝ) (ph : ℕ → ℝ) :
    (constructState sr mj ph).fdnLines = resizeFDNBuffers initFDNLine := rfl

/-- Base length of FDN line 7 in the constructed engine. -/
lemma engine48_line7_baseSize : (engine48.fdnLines 7).baseSize = 3989 := by
  unfold engine48 constructEngine
  rw [update_fdn_baseSize, constructState_fdnLines, resizeFDNBuffers_init]
  rfl

/-- After the Ambient/full-size update, line 7's logical length is 15956. -/
lemma stAmbient_line7_size : (stAmbient.fdnLines 7).size = 15956 := by
  unfold stAmbient
  rw [update_fdn_size, setParams_fdnLines, setParams_params, engine48_line7_baseSize,
    sizeMultiplier_ambient]
  norm_num

/-- Line 7's buffer is still the provisioned 8192-sample buffer. -/
lemma stAmbient_line7_buffer : (stAmbient.fdnLines 7).buffer = List.replicate 8192 0 := by
  unfold stAmbient
  rw [update_fdn_buffer, setParams_fdnLines]
  unfold engine48 constructEngine
  rw [update_fdn_buffer, constructState_fdnLines, resizeFDNBuffers_init]
  rfl

/-- Line 7's write index starts at 0. -/
lemma stAmbient_line7_index : (stAmbient.fdnLines 7).index = 0 := by
  unfold stAmbient
  rw [update_fdn_index, setParams_fdnLines]
  unfold engine48 constructEngine
  rw [update_fdn_index, constructState_fdnLines, resizeFDNBuffers_init]
  rfl

/-- Line 7's modulation depth is 0 after the update with modDepth 0. -/
lemma stAmbient_line7_modDepth : (stAmbient.fdnLines 7).modDepth = 0 := by
  unfold stAmbient
  rw [update_fdn_modDepth, setParams_params]
  rw [show paramsAmbientFull.modDepth = 0 from rfl]
  norm_num

/-- C2 (code bug): immediately after the parameter update with mode 3
(Ambient) and size 1, FDN line 7's logical length is
`⌊3989 · (0.3 + 1·1.7) · 2.0⌋ = 15956` — it is not capped: it exceeds both
the claimed 2×base cap (7978) and the actually allocated buffer length
(8192), so the logical length does exceed the allocated buffer. -/
theorem C2_code_bug_uncapped_length :
    (stAmbient.fdnLines 7).size = 15956
    ∧ (stAmbient.fdnLines 7).buffer.length = 8192
    ∧ (stAmbient.fdnLines 7).baseSize * 2 = 7978
    ∧ ¬ ((stAmbient.fdnLines 7).size ≤ ((stAmbient.fdnLines 7).buffer.length : ℤ))
    ∧ ¬ ((stAmbient.fdnLines 7).size ≤ (((stAmbient.fdnLines 7).baseSize * 2 : ℕ) : ℤ)) := by
  have hs := stAmbient_line7_size
  have hb : (stAmbient.fdnLines 7).buffer.length = 8192 := by
    rw [stAmbient_line7_buffer]
    exact List.length_replicate _ _
  have hbase : (stAmbient.fdnLines 7).baseSize = 3989 := by
    unfold stAmbient
    rw [update_fdn_baseSize, setParams_fdnLines]
    exact engine48_line7_baseSize
  refine ⟨hs, hb, by rw [hbase], ?_, ?_⟩
  · rw [hs, hb]
    norm_num
  · rw [hs, hbase]
    norm_num

/-- The left output of one sample step is the highpassed input dried by
`1 − mix` plus the wet signal scaled by `mix`, clamped — with the wet
signal abstracted. -/
lemma processSample_outL_ex (st : EngineState) (a b : ℝ) :
    ∃ w, (processSample st a b).2.1
      = clamp1 ((a - st.inputHP.stateL) * (1 - st.params.mix) + w * st.params.mix) :=
  ⟨_, rfl⟩

/-- Right-channel analogue of `processSample_outL_ex`. -/
lemma processSample_outR_ex (st : EngineState) (a b : ℝ) :
    ∃ w, (processSample st a b).2.2
      = clamp1 ((b - st.inputHP.stateR) * (1 - st.params.mix) + w * st.params.mix) :=
  ⟨_, rfl⟩

/-- With mix = 0 the left output sample is the clamped input-highpass
output, independent of the whole wet path. -/
lemma processSample_outL (st : EngineState) (a b : ℝ) (h : st.params.mix = 0) :
    (processSample st a b).2.1 = clamp1 (a - st.inputHP.stateL) := by
  obtain ⟨w, hw⟩ := processSample_outL_ex st a b
  rw [hw, h]
  norm_num

/-- With mix = 0 the right output sample is the clamped input-highpass
output. -/
lemma processSample_outR (st : EngineState) (a b : ℝ) (h : st.params.mix = 0) :
    (processSample st a b).2.2 = clamp1 (b - st.inputHP.stateR) := by
  obtain ⟨w, hw⟩ := processSample_outR_ex st a b
  rw [hw, h]
  norm_num

/-- A sample step does not change the parameter record. -/
lemma processSample_params (st : EngineState) (a b : ℝ) :
    (processSample st a b).1.params = st.params := rfl

/-- Evolution of the left input-highpass state over one sample. -/
lemma processSample_inputHP_stateL (st : EngineState) (a b : ℝ) :
    (processSample st a b).1.inputHP.stateL
      = st.inputHP.stateL + st.inputHP.coeff * (a - st.inputHP.stateL) := rfl

/-- The second output sample of a two-sample all-ones block at mix = 0:
the input highpass has state `c·1` by then, so the output is
`clamp1 (1 − state)` — not the input itself. -/
lemma process_second_outL_mix0 (st : EngineState) (h : st.params.mix = 0) :
    ((process st [((1:ℝ), (1:ℝ)), (1, 1)]).2.getD 1 (0, 0)).1
      = clamp1 (1 - (st.inputHP.stateL + st.inputHP.coeff * (1 - st.inputHP.stateL))) := by
  set STA : EngineState :=
    { st with lfos := fun i =>
        lfoAdvance ((([((1:ℝ), (1:ℝ)), (1, 1)] : List (ℝ × ℝ)).length : ℕ) : ℝ) (st.lfos i) }
    with hSTA
  have h1 : ((process st [((1:ℝ), (1:ℝ)), (1, 1)]).2.getD 1 (0, 0)).1
      = (processSample (processSample STA 1 1).1 1 1).2.1 := rfl
  have hm : ((processSample STA 1 1).1).params.mix = 0 := by
    rw [processSample_params, hSTA]
    exact h
  rw [h1, processSample_outL _ 1 1 hm, processSample_inputHP_stateL]

/-- The default parameter record with the mix set fully dry. -/
def paramsMix0 : Params := { defaultParams with mix := 0 }

/-- The constructed engine right after receiving `paramsMix0`. -/
noncomputable def stMix0 : EngineState :=
  updateInternalParams (fun _ => 1) (setParams engine48 paramsMix0)

/-- The mix of `stMix0` is 0. -/
lemma stMix0_mix : stMix0.params.mix = 0 := rfl

/-- The input-highpass state of `stMix0` is still 0. -/
lemma stMix0_stateL : stMix0.inputHP.stateL = 0 := rfl

/-- The input-highpass coefficient of `stMix0` (lowCut 100 Hz, 48 kHz). -/
lemma stMix0_coeff : stMix0.inputHP.coeff = onePoleCoeff 100 48000 * 0.05 := rfl

/-- C6 counterexample: at mix = 0, processing the two-sample block
`[(1,1),(1,1)]` on the freshly constructed engine yields a second output
sample different from the input 1 — the dry path passes through the input
highpass (coefficient `0.05·(1 − e^{−2π·100/48000})` > 0), so bypass is
not the identity. -/
theorem C6_counterexample :
    ((process stMix0 [((1:ℝ), (1:ℝ)), (1, 1)]).2.getD 1 (0, 0)).1 ≠ 1 := by
  rw [process_second_outL_mix0 stMix0 stMix0_mix, stMix0_stateL, stMix0_coeff]
  have hexp1 : Real.exp (-(2 * Real.pi * 100) / 48000) < 1 := by
    rw [Real.exp_lt_one_iff]
    have : 0 < 2 * Real.pi * 100 / 48000 := by positivity
    linarith
  have hexp0 : 0 < Real.exp (-(2 * Real.pi * 100) / 48000) := Real.exp_pos _
  have hc0 : 0 < onePoleCoeff 100 48000 * 0.05 := by
    rw [onePoleCoeff]
    nlinarith
  have hc1 : onePoleCoeff 100 48000 * 0.05 ≤ 0.05 := by
    rw [onePoleCoeff]
    nlinarith
  have harg : (1:ℝ) - (0 + onePoleCoeff 100 48000 * 0.05 * (1 - 0))
      = 1 - onePoleCoeff 100 48000 * 0.05 := by ring
  rw [harg, clamp1, min_eq_right (by linarith), max_eq_right (by linarith)]
  intro heq
  nlinarith

/-- C6 amended: when mix = 0 each output sample equals the corresponding
input sample passed through the one-pole input highpass and the final
clamp — not the raw input; they coincide only in special cases such as the
first sample from a zero filter state or a zero highpass coefficient. -/
theorem C6_amended_mix0_dry_path (st : EngineState) (a b : ℝ) (h : st.params.mix = 0) :
    (processSample st a b).2.1 = clamp1 (a - st.inputHP.stateL)
    ∧ (processSample st a b).2.2 = clamp1 (b - st.inputHP.stateR) :=
  ⟨processSample_outL st a b h, processSample_outR st a b h⟩

/-- Witness for the amended C6 at the concrete mix-0 engine. -/
theorem C6_amended_witness :
    stMix0.params.mix = 0
    ∧ (processSample stMix0 1 1).2.1 = clamp1 (1 - stMix0.inputHP.stateL) :=
  ⟨stMix0_mix, (C6_amended_mix0_dry_path stMix0 1 1 stMix0_mix).1⟩

/-- `jsArraySet` never changes a buffer's length. -/
lemma jsArraySet_length (l : List ℝ) (i : ℤ) (v : ℝ) :
    (jsArraySet l i v).length = l.length := by
  rw [jsArraySet]
  split_ifs
  · exact List.length_set l i.toNat v
  · rfl

/-- One FDN line write keeps the logical length. -/
lemma fdnLineStep_size (v f : ℝ) (line : FDNLine) (n : ℤ) :
    ((fdnLineStep v f line n).1).size = line.size := rfl

/-- One FDN line write keeps the modulation depth. -/
lemma fdnLineStep_modDepth (v f : ℝ) (line : FDNLine) (n : ℤ) :
    ((fdnLineStep v f line n).1).modDepth = line.modDepth := rfl

/-- One FDN line write advances the index by 1 modulo the logical length. -/
lemma fdnLineStep_index (v f : ℝ) (line : FDNLine) (n : ℤ) :
    ((fdnLineStep v f line n).1).index = (line.index + 1).tmod line.size := rfl

/-- One FDN line write keeps the allocated buffer length. -/
lemma fdnLineStep_buffer_length (v f : ℝ) (line : FDNLine) (n : ℤ) :
    ((fdnLineStep v f line n).1).buffer.length = line.buffer.length := by
  obtain ⟨val, hv⟩ : ∃ val, ((fdnLineStep v f line n).1).buffer
      = jsArraySet line.buffer line.index val := ⟨_, rfl⟩
  rw [hv, jsArraySet_length]

/-- Each line produced by the FDN write loop is an `fdnLineStep` image of
the corresponding input line (for some feed value and noise state). -/
lemma fdnWrite8_exists (v g x : ℝ) (mo : Fin 8 → ℝ) (lines : Fin 8 → FDNLine) (n : ℤ)
    (i : Fin 8) :
    ∃ f m, (fdnWrite8 v g x mo lines n).1 i = (fdnLineStep v f (lines i) m).1 := by
  fin_cases i
  all_goals exact ⟨_, _, rfl⟩

attribute [irreducible] fdnWrite8

/-- The FDN lines after one sample step are the write-loop image of the
previous lines. -/
lemma processSample_fdn_exists (st : EngineState) (a b : ℝ) :
    ∃ x mo, (processSample st a b).1.fdnLines
      = (fdnWrite8 st.params.vintage st.fdnFeedback x mo st.fdnLines st.noiseGen).1 :=
  ⟨_, _, rfl⟩

/-- Per-sample FDN line evolution: size, modulation depth and buffer length
are preserved and the write index advances by one modulo the length. -/
lemma processSample_fdn_evolution (st : EngineState) (a b : ℝ) (i : Fin 8) :
    ((processSample st a b).1.fdnLines i).size = (st.fdnLines i).size
    ∧ ((processSample st a b).1.fdnLines i).modDepth = (st.fdnLines i).modDepth
    ∧ ((processSample st a b).1.fdnLines i).buffer.length = (st.fdnLines i).buffer.length
    ∧ ((processSample st a b).1.fdnLines i).index
        = ((st.fdnLines i).index + 1).tmod (st.fdnLines i).size := by
  obtain ⟨x, mo, hx⟩ := processSample_fdn_exists st a b
  obtain ⟨f, m, hfm⟩ :=
    fdnWrite8_exists st.params.vintage st.fdnFeedback x mo st.fdnLines st.noiseGen i
  rw [hx, hfm]
  exact ⟨fdnLineStep_size _ _ _ _, fdnLineStep_modDepth _ _ _ _,
    fdnLineStep_buffer_length _ _ _ _, fdnLineStep_index _ _ _ _⟩

/-- The JS `%` fixes a value already in `[0, b)`. -/
lemma tmod_small (a b : ℤ) (h0 : 0 ≤ a) (h1 : a < b) : a.tmod b = a := by
  rw [Int.tmod_eq_emod h0 (le_trans h0 (le_of_lt h1))]
  exact Int.emod_eq_of_lt h0 h1

/-- Running the per-sample loop for `l.length` samples, while the index
stays below the logical length, advances the index by exactly `l.length`
and preserves size, modulation depth and buffer length. -/
lemma processSamples_fdn_run (l : List (ℝ × ℝ)) (st : EngineState) (i : Fin 8)
    (h0 : 0 ≤ (st.fdnLines i).index)
    (h1 : (st.fdnLines i).index + l.length < (st.fdnLines i).size) :
    ((processSamples st l).1.fdnLines i).size = (st.fdnLines i).size
    ∧ ((processSamples st l).1.fdnLines i).modDepth = (st.fdnLines i).modDepth
    ∧ ((processSamples st l).1.fdnLines i).buffer.length = (st.fdnLines i).buffer.length
    ∧ ((processSamples st l).1.fdnLines i).index = (st.fdnLines i).index + l.length := by
  induction l generalizing st with
  | nil =>
    refine ⟨rfl, rfl, rfl, ?_⟩
    show (st.fdnLines i).index = (st.fdnLines i).index + (([] : List (ℝ × ℝ)).length : ℤ)
    simp
  | cons p rest ih =>
    obtain ⟨a, b⟩ := p
    push_cast [List.length_cons] at h1
    have hev := processSample_fdn_evolution st a b i
    have hidx1 : ((processSample st a b).1.fdnLines i).index = (st.fdnLines i).index + 1 := by
      rw [hev.2.2.2]
      exact tmod_small _ _ (by omega) (by omega)
    have hrun := ih (processSample st a b).1
      (by rw [hidx1]; omega)
      (by rw [hidx1, hev.1]; omega)
    have hfold : (processSamples st ((a, b) :: rest)).1
        = (processSamples (processSample st a b).1 rest).1 := rfl
    rw [hfold]
    refine ⟨?_, ?_, ?_, ?_⟩
    · rw [hrun.1, hev.1]
    · rw [hrun.2.1, hev.2.1]
    · rw [hrun.2.2.1, hev.2.2.1]
    · rw [hrun.2.2.2, hidx1]
      push_cast [List.length_cons]
      ring

/-- The per-sample fold splits over list append. -/
lemma processSamples_append (st : EngineState) (l1 l2 : List (ℝ × ℝ)) :
    (processSamples st (l1 ++ l2)).1 = (processSamples (processSamples st l1).1 l2).1 := by
  induction l1 generalizing st with
  | nil => rfl
  | cons p rest ih =>
    obtain ⟨a, b⟩ := p
    show (processSamples (processSample st a b).1 (rest ++ l2)).1 = _
    rw [ih (processSample st a b).1]
    rfl

/-- The 8193-sample silent input block of the C1 failing scenario. -/
def silentBlock8193 : List (ℝ × ℝ) := List.replicate 8193 ((0:ℝ), (0:ℝ))

/-- The state of `process stAmbient silentBlock8193` right after the
per-block LFO advance, before the per-sample loop. -/
noncomputable def stB : EngineState :=
  { stAmbient with lfos := fun i => lfoAdvance (silentBlock8193.length : ℝ) (stAmbient.lfos i) }

/-- The engine state reached after the first 8192 samples of the block —
the state in which `process` computes its 8193rd FDN read. -/
noncomputable def stMid8192 : EngineState :=
  (processSamples stB (List.replicate 8192 ((0:ℝ), (0:ℝ)))).1

/-- C1 (code bug): processing the valid 8193-sample silent block on the
engine updated with mode 3 (Ambient), size 1 (a valid parameter record)
reaches, at sample 8192, an FDN read index of 8192 on line 7 — one past
the end of its 8192-sample buffer.  In JS this `Float32Array` read yields
`undefined`, the interpolated value becomes `NaN`, and `NaN` survives the
`Math.max/Math.min` output clamp, so `process` writes a non-finite sample,
contradicting the claim.  The last conjunct confirms `stMid8192` is
exactly the state `process` reaches before its final sample. -/
theorem C1_code_bug_oob_read (v : ℝ) :
    fdnIdx1 (stMid8192.fdnLines 7) v = 8192
    ∧ (stMid8192.fdnLines 7).buffer.length = 8192
    ∧ ¬ (fdnIdx1 (stMid8192.fdnLines 7) v < ((stMid8192.fdnLines 7).buffer.length : ℤ))
    ∧ (process stAmbient silentBlock8193).1
        = (processSamples stMid8192 [((0:ℝ), (0:ℝ))]).1 := by
  have hfdnB : stB.fdnLines = stAmbient.fdnLines := rfl
  have hidx0 : (stB.fdnLines 7).index = 0 := by rw [hfdnB]; exact stAmbient_line7_index
  have hsz : (stB.fdnLines 7).size = 15956 := by rw [hfdnB]; exact stAmbient_line7_size
  have hmd : (stB.fdnLines 7).modDepth = 0 := by rw [hfdnB]; exact stAmbient_line7_modDepth
  have hbl : (stB.fdnLines 7).buffer.length = 8192 := by
    rw [hfdnB, stAmbient_line7_buffer]
    exact List.length_replicate _ _
  obtain ⟨hSize, hMod, hBuf, hIdx⟩ :=
    processSamples_fdn_run (List.replicate 8192 ((0:ℝ), (0:ℝ))) stB 7
      (by rw [hidx0])
      (by rw [hidx0, hsz, List.length_replicate]; norm_num)
  have hsizeM : (stMid8192.fdnLines 7).size = 15956 := by
    unfold stMid8192
    rw [hSize, hsz]
  have hmodM : (stMid8192.fdnLines 7).modDepth = 0 := by
    unfold stMid8192
    rw [hMod, hmd]
  have hbufM : (stMid8192.fdnLines 7).buffer.length = 8192 := by
    unfold stMid8192
    rw [hBuf, hbl]
  have hidxM : (stMid8192.fdnLines 7).index = 8192 := by
    unfold stMid8192
    rw [hIdx, hidx0, List.length_replicate]
    norm_num
  have hread : fdnIdx1 (stMid8192.fdnLines 7) v = 8192 := by
    simp only [fdnIdx1]
    rw [hidxM, hsizeM, hmodM]
    have hcast : ((8192:ℤ):ℝ) - ((15956:ℤ):ℝ) - 0 * v = ((-7764:ℤ):ℝ) := by
      push_cast
      ring
    rw [hcast, Int.floor_intCast]
    decide
  have hsplit : silentBlock8193
      = List.replicate 8192 ((0:ℝ), (0:ℝ)) ++ [((0:ℝ), (0:ℝ))] := by
    show List.replicate 8193 ((0:ℝ), (0:ℝ)) = _
    rw [show (8193:ℕ) = 8192 + 1 by norm_num, List.replicate_succ']
  have hproc : (process stAmbient silentBlock8193).1
      = (processSamples stMid8192 [((0:ℝ), (0:ℝ))]).1 := by
    show (processSamples stB silentBlock8193).1 = _
    rw [hsplit, processSamples_append]
    rfl
  exact ⟨hread, hbufM, by rw [hread, hbufM]; norm_num, hproc⟩
